import Mathlib

/-!
Verification development for the HardwareSphere repository.

The Express backend (`hardwaresphere-api`) and the relevant client form are
shallowly embedded below.  JavaScript numbers occurring in the STL pipeline are
modeled as exact rationals (`ℚ`); JavaScript strings are modeled as Lean
strings, with the primitive operations (`toLowerCase`, `endsWith`, `split`,
`path.extname`) re-implemented by structural recursion over the character list
so that every definition is kernel-computable.  Firestore is modeled as a
lookup function (or a finite document list where a counting query occurs) and
Redis as a lookup function from keys to cached response bodies.
-/

/- ----------------------------------------------------------------- -/
/- JavaScript string primitives, kernel-computable.                  -/
/- ----------------------------------------------------------------- -/

/-- Lower-case a single character, as `String.prototype.toLowerCase` does for
the ASCII range used by the file extensions in this code base. -/
def charLower (c : Char) : Char :=
  if 65 ≤ c.toNat ∧ c.toNat ≤ 90 then Char.ofNat (c.toNat + 32) else c

/-- Model of `s.toLowerCase()`. -/
def strLower (s : String) : String := String.mk (s.data.map charLower)

/-- Model of `s.endsWith(suff)`. -/
def strEndsWith (s suff : String) : Bool := suff.data.isSuffixOf s.data

/-- Model of `s.startsWith(p)`. -/
def strStartsWith (s p : String) : Bool := p.data.isPrefixOf s.data

/-- Suffix of a character list after the last occurrence of `sep`; the whole
list when `sep` does not occur.  Used for `split(sep).pop()` and for the
basename step of `path.extname`. -/
def afterLast (sep : Char) (l : List Char) : List Char :=
  l.foldl (fun acc c => if c = sep then [] else acc ++ [c]) []

/-- Index of the last `.` in a character list. -/
def lastDotIdx (l : List Char) : Option Nat :=
  (l.reverse.findIdx? (fun c => c = '.')).map (fun j => l.length - 1 - j)

/-- Extension of a basename, following Node `path.extname`: the suffix from
the last dot; empty exactly when there is no dot, when the last dot is the
first character of the basename (`.bashrc`), or when the basename is exactly
`..` — a basename with two or more leading dots keeps its suffix
(`..stl` has extension `.stl`, `...` has extension `.`). -/
def extFrom (b : List Char) : List Char :=
  match lastDotIdx b with
  | none => []
  | some i => if i = 0 then [] else if b = ['.', '.'] then [] else b.drop i

/-- Strip of every trailing `sep`, as `path.extname` skips trailing slashes
before isolating the basename. -/
def dropTrailing (sep : Char) (l : List Char) : List Char :=
  (l.reverse.dropWhile (fun c => c = sep)).reverse

/-- Model of Node `path.extname` (posix): trailing slashes are skipped, the
basename is the part after the last remaining slash, and `extFrom` extracts
its extension. -/
def extname (p : String) : String :=
  String.mk (extFrom (afterLast '/' (dropTrailing '/' p.data)))

/-- Segment of `l` between the first occurrence of `sep` (removed) and the
next occurrence of `sep`, i.e. element 1 of `l.split(sep)` once the leading
occurrence has already been dropped by the caller. -/
def splitFirst (sep : List Char) : List Char → List Char
  | [] => []
  | c :: cs => if sep.isPrefixOf (c :: cs) then [] else c :: splitFirst sep cs

/- ----------------------------------------------------------------- -/
/- Data model: project documents, response bodies, stores.           -/
/- ----------------------------------------------------------------- -/

/-- A Firestore project document.  `userId`, `visibility`, `isPinned` and
`stats.views` are the fields the routes under verification read or write; all
remaining document fields are bundled unchanged into `payload`. -/
structure Project where
  userId : String
  visibility : String
  isPinned : Bool
  views : Nat
  payload : String
deriving DecidableEq

/-- A JSON response body produced by the routes under verification. -/
inductive Body where
  | projectDoc (id : String) (p : Project)
  | projectList (ps : List (String × Project))
  | errorMsg (msg : String)
  | viewSuccess
  | pinSuccess
deriving DecidableEq

/-- An HTTP response: status code and JSON body. -/
structure Response where
  status : Nat
  body : Body
deriving DecidableEq

/-- Firestore `projects` collection, by document id. -/
def Db := String → Option Project

/-- Redis cache contents, by key; a missing key (or a failed/disconnected
client, see `rcGet`) reads as `none`. -/
def Cache := String → Option Body

/-- Cache after `redisClient.set key b`. -/
def cacheSet (c : Cache) (k : String) (b : Body) : Cache :=
  fun q => if q = k then some b else c q

/-- Cache after `redisClient.del k`. -/
def cacheDel (c : Cache) (k : String) : Cache :=
  fun q => if q = k then none else c q

/- ----------------------------------------------------------------- -/
/- middleware/auth.js : verifyFirebaseToken                          -/
/- ----------------------------------------------------------------- -/

/-- Decoded Firebase ID token (`auth.verifyIdToken` result). -/
structure DecodedToken where
  uid : String
  email : String
  name : String
deriving DecidableEq

/-- An error thrown by `auth.verifyIdToken`, carrying its `code`. -/
structure AuthError where
  code : String
deriving DecidableEq

/-- The `req.user` object the middleware installs. -/
structure ReqUser where
  uid : String
  email : String
  name : String
deriving DecidableEq

/-- Model of `authHeader.split('Bearer ')[1]`, assuming the caller already
checked `authHeader.startsWith('Bearer ')`: drop the 7-character marker and
stop at its next occurrence. -/
def bearerToken (h : String) : String :=
  String.mk (splitFirst ("Bearer ".data) (h.data.drop 7))

/-- Model of `verifyFirebaseToken` (middleware/auth.js lines 3-23).  The
Firebase verifier is passed in as a function returning either a decoded token
or a thrown error; the guarded route handler is the continuation. -/
def verifyFirebaseToken (verifyIdToken : String → Except AuthError DecodedToken)
    (authorization : Option String) (handler : ReqUser → Response) : Response :=
  match authorization with
  | none => ⟨401, Body.errorMsg "No token provided or invalid format"⟩
  | some h =>
    if strStartsWith h "Bearer " = false then
      ⟨401, Body.errorMsg "No token provided or invalid format"⟩
    else
      match verifyIdToken (bearerToken h) with
      | Except.error e =>
        if e.code = "auth/id-token-expired" then ⟨401, Body.errorMsg "Token has expired."⟩
        else ⟨401, Body.errorMsg "Invalid token"⟩
      | Except.ok d =>
        handler ⟨d.uid, d.email, if d.name = "" then d.email else d.name⟩

/- ----------------------------------------------------------------- -/
/- config/redis.js : RedisClient.get / set / del                     -/
/- ----------------------------------------------------------------- -/

/-- An error thrown by the underlying `redis` client. -/
structure RedisErr where
  msg : String
deriving DecidableEq

/-- Model of `RedisClient.get` (config/redis.js lines 74-83).  `clientGet` is
the outcome of `this.client.get(key)` (an error when it throws), `parse` the
outcome of `JSON.parse` on the returned string (an error when it throws, both
caught by the surrounding `try`); the empty string is falsy in JavaScript, so
`value ? JSON.parse(value) : null` yields `null` for it. -/
def rcGet (isConnected : Bool) (clientGet : Except RedisErr (Option String))
    (parse : String → Except RedisErr Body) : Option Body :=
  if isConnected = false then none
  else
    match clientGet with
    | Except.error _ => none
    | Except.ok none => none
    | Except.ok (some v) =>
      if v = "" then none
      else
        match parse v with
        | Except.error _ => none
        | Except.ok b => some b

/-- Model of `RedisClient.set` (config/redis.js lines 85-94). -/
def rcSet (isConnected : Bool) (clientSetEx : Except RedisErr Unit) : Bool :=
  if isConnected = false then false
  else
    match clientSetEx with
    | Except.error _ => false
    | Except.ok _ => true

/-- Model of `RedisClient.del` (config/redis.js lines 96-105). -/
def rcDel (isConnected : Bool) (clientDel : Except RedisErr Unit) : Bool :=
  if isConnected = false then false
  else
    match clientDel with
    | Except.error _ => false
    | Except.ok _ => true

/- ----------------------------------------------------------------- -/
/- routes/projects.js (cached copy)                                  -/
/- ----------------------------------------------------------------- -/

/-- Model of the `GET /:id` handler body (routes/projects.js lines 115-138):
fetch the document, 404 when missing, 404 when private and the requester
(`user`, an optional uid installed by `optionalVerifyFirebaseToken`) is not
the owner, otherwise the project.  `projectService.getProject` is the document
lookup; URL signing only rewrites fields inside `payload`. -/
def getProjectHandler (db : Db) (user : Option String) (id : String) : Response :=
  match db id with
  | none => ⟨404, Body.errorMsg "Project not found"⟩
  | some p =>
    if p.visibility = "private" ∧ ¬ user = some p.userId then
      ⟨404, Body.errorMsg "Project not found or you do not have permission to view it."⟩
    else ⟨200, Body.projectDoc id p⟩

/-- Model of `GET /:id` composed with the `cacheProject` middleware
(middleware/cache.js lines 4-42, key `project:` + id): on a cache hit the
cached body is sent back with `res.json`, hence status 200; on a miss the
handler runs and whatever body it passes to the intercepted `res.json` is
stored under the key.  Returns the response and the resulting cache. -/
def getProjectByIdRoute (db : Db) (c : Cache) (user : Option String) (id : String) :
    Response × Cache :=
  match c ("project:" ++ id) with
  | some cached => (⟨200, cached⟩, c)
  | none =>
    let r := getProjectHandler db user id
    (r, cacheSet c ("project:" ++ id) r.body)

/-- Model of `POST /:id/view` (routes/projects.js lines 202-217): a Firestore
`update` incrementing `stats.views` by 1 — which throws when the document does
not exist, caught as a 500 — then `redisClient.del` on the project key, then
`200 { success: true }`. -/
def incrementViewRoute (db : Db) (c : Cache) (id : String) :
    Response × Db × Cache :=
  match db id with
  | none => (⟨500, Body.errorMsg "Failed to update view count"⟩, db, c)
  | some p =>
    (⟨200, Body.viewSuccess⟩,
     fun q => if q = id then some { p with views := p.views + 1 } else db q,
     cacheDel c ("project:" ++ id))

/-- A segment of an Express route pattern. -/
inductive Seg where
  | param (name : String)
  | lit (s : String)

/-- Whether one pattern segment matches one path segment. -/
def segMatches : Seg → String → Bool
  | Seg.param _, _ => true
  | Seg.lit s, x => s = x

/-- Whether a route pattern matches a path, segment by segment. -/
def matchPath : List Seg → List String → Bool
  | [], [] => true
  | p :: ps, x :: xs => segMatches p x && matchPath ps xs
  | _, _ => false

/-- The GET routes of the projects router in registration order
(routes/projects.js lines 115 and 141): `/:id` first, `/me` second. -/
def projectsGetRoutes : List (List Seg) :=
  [[Seg.param "id"], [Seg.lit "me"]]

/-- Express dispatch: index of the first registered GET route whose pattern
matches the request path. -/
def dispatchIndex (segs : List String) : Option Nat :=
  projectsGetRoutes.findIdx? (fun pat => matchPath pat segs)

/-- Serving a GET request against the projects router.  Route 0 is the
`/:id` route, whose `id` parameter is bound to the matched segment; route 1 is
the `/me` route, whose handler is abstracted as `meHandler` because (as proved
below) dispatch never reaches it for the path `/me`. -/
def serveProjectsGet (db : Db) (c : Cache) (user : Option String)
    (meHandler : Response × Cache) (segs : List String) :
    Option (Response × Cache) :=
  match dispatchIndex segs with
  | some 0 => some (getProjectByIdRoute db c user (segs.getD 0 ""))
  | some 1 => some meHandler
  | _ => none

/- ----------------------------------------------------------------- -/
/- routes/users.js : POST /projects/:projectId/toggle-pin            -/
/- ----------------------------------------------------------------- -/

/-- Firestore `projects` collection as a finite list of (id, document) pairs,
used where the code runs a counting query over the collection. -/
def PDb := List (String × Project)

/-- Document lookup by id (first entry with the id). -/
def lookupDoc (db : PDb) (id : String) : Option Project :=
  (db.find? (fun e => e.1 = id)).map (fun e => e.2)

/-- Size of the query `where userId == uid`, `where isPinned == true`. -/
def pinnedCount (db : PDb) (uid : String) : Nat :=
  (db.filter (fun e => e.2.userId == uid && e.2.isPinned)).length

/-- The transaction update `{ isPinned: v }` on document `id`. -/
def setPinned (db : PDb) (id : String) (v : Bool) : PDb :=
  db.map (fun e => if e.1 = id then (e.1, { e.2 with isPinned := v }) else e)

/-- Model of the toggle-pin transaction (routes/users.js lines 342-383): 404
semantics when the document is missing or not owned by the requester; when the
project is currently unpinned and the requester already has 4 or more pinned
projects the transaction throws and writes nothing; otherwise `isPinned` is
replaced by its negation.  `projectDoc.data().isPinned === true` makes a
missing field count as unpinned, so `isPinned : Bool` is exact. -/
def togglePin (db : PDb) (uid : String) (projectId : String) : Except String PDb :=
  match lookupDoc db projectId with
  | none => Except.error "Project not found or you do not have permission to pin it."
  | some p =>
    if ¬ p.userId = uid then
      Except.error "Project not found or you do not have permission to pin it."
    else
      if p.isPinned = false ∧ 4 ≤ pinnedCount db uid then
        Except.error "You can only pin a maximum of 4 projects."
      else Except.ok (setPinned db projectId (! p.isPinned))

/-- The route wrapper: 200 on success, 500 with the thrown message otherwise;
a thrown transaction leaves the collection unchanged.  (The route also
invalidates two user-level cache keys, which the claim does not mention.) -/
def togglePinRoute (db : PDb) (uid : String) (projectId : String) :
    Response × PDb :=
  match togglePin db uid projectId with
  | Except.ok db2 => (⟨200, Body.pinSuccess⟩, db2)
  | Except.error m => (⟨500, Body.errorMsg m⟩, db)

/-- Count contribution of one document to `pinnedCount` for user `u` (proof
support for the pin-invariant bookkeeping). -/
def pinIndicator (p : Project) (u : String) : Nat :=
  if p.userId == u && p.isPinned then 1 else 0

/- ----------------------------------------------------------------- -/
/- services/file-service.js : FileService.getFileType                -/
/- ----------------------------------------------------------------- -/

/-- Model of `FileService.getFileType` (file-service.js lines 133-150):
category of a file from the lower-cased `path.extname` of its original name. -/
def getFileType (originalname : String) : String :=
  let extension := strLower (extname originalname)
  if extension ∈ [".stl", ".gltf", ".glb", ".obj"] then "model"
  else if extension ∈ [".py", ".cpp", ".js", ".m", ".zip"] then "code"
  else if extension ∈ [".pdf", ".doc", ".docx", ".txt"] then "documentation"
  else if extension ∈ [".mp4", ".mov", ".avi", ".webm"] then "video"
  else "other"

/- ----------------------------------------------------------------- -/
/- services/project-service.js : ProjectService.createProject        -/
/- ----------------------------------------------------------------- -/

/-- An uploaded file as seen by the service (only `originalname` matters for
the model-file requirement). -/
structure MFile where
  originalname : String
deriving DecidableEq

/-- The `req.files` object passed to `createProject`: the `modelFile` field
(at most one file) and the `projectFiles` field. -/
structure UploadFiles where
  modelFile : List MFile
  projectFiles : List MFile
deriving DecidableEq

/-- Model of `f.originalname.toLowerCase().endsWith('.stl')`. -/
def isStlName (name : String) : Bool := strEndsWith (strLower name) ".stl"

/-- Model of the model-file selection in `ProjectService.createProject`
(project-service.js lines 69-79): `files.modelFile[0]` when present —
whatever its extension — otherwise the first entry of `files.projectFiles`
whose name ends case-insensitively in `.stl`. -/
def selectModelFile (files : UploadFiles) : Option MFile :=
  match files.modelFile with
  | f :: _ => some f
  | [] => files.projectFiles.find? (fun f => isStlName f.originalname)

/-- Model of the `.stl` requirement gate of `ProjectService.createProject`
(project-service.js lines 83-85).  The throw happens before `projectRef.set`,
so an `error` outcome creates no project document; an `ok f` outcome proceeds
to create the document with `f` as the model file. -/
def createProjectModelCheck (files : UploadFiles) : Except String MFile :=
  match selectModelFile files with
  | none => Except.error "A 3D model file (.stl) is required to create a project."
  | some f => Except.ok f

/-- Model of the client-side `getFileType` of the create form (part_001 lines
113-124): the extension is `file.name.split('.').pop()?.toLowerCase()`,
filtered through the allowed-extension list first. -/
def clientGetFileType (name : String) : String :=
  let extension := strLower (String.mk (afterLast '.' name.data))
  if extension = "" ∨
      extension ∉ ["stl", "gltf", "glb", "obj", "pdf", "doc", "docx", "txt",
        "mp4", "mov", "avi", "webm", "py", "cpp", "js", "m"] then "other"
  else if extension ∈ ["stl", "gltf", "glb", "obj"] then "model"
  else if extension ∈ ["py", "cpp", "js", "ino", "zip"] then "code"
  else if extension ∈ ["pdf", "doc", "docx", "txt"] then "documentation"
  else if extension ∈ ["mp4", "mov", "avi", "webm"] then "video"
  else "other"

/-- Model of `validateForm`'s required-model check (part_001 lines 212-215):
some selected file has client type `model`. -/
def clientHasModelFile (names : List String) : Bool :=
  names.any (fun n => clientGetFileType n == "model")

/- ----------------------------------------------------------------- -/
/- services/conversion-service.js : STL parsing and scaling          -/
/- ----------------------------------------------------------------- -/

/-- One byte of a binary buffer (0 outside the buffer, as the claims always
supply buffers long enough for every read). -/
def byteAt (buf : List Nat) (i : Nat) : Nat := buf.getD i 0 % 256

/-- Model of `buffer.readUInt16LE`. -/
def readUInt16LE (buf : List Nat) (off : Nat) : Nat :=
  byteAt buf off + 256 * byteAt buf (off + 1)

/-- Model of `buffer.readUInt32LE`. -/
def readUInt32LE (buf : List Nat) (off : Nat) : Nat :=
  byteAt buf off + 256 * byteAt buf (off + 1) +
    65536 * byteAt buf (off + 2) + 16777216 * byteAt buf (off + 3)

/-- Model of `buffer.readFloatLE`: IEEE-754 binary32 decoded to an exact
rational.  Exponent 255 (infinities and NaNs) has no rational value and is
mapped to 0; no claim under verification involves such a payload. -/
def decodeFloat32LE (buf : List Nat) (off : Nat) : ℚ :=
  let bits := readUInt32LE buf off
  let sign : ℚ := if bits / 2 ^ 31 = 1 then -1 else 1
  let e : ℕ := bits / 2 ^ 23 % 256
  let m : ℕ := bits % 2 ^ 23
  if e = 0 then sign * ((m : ℚ) / 2 ^ 149)
  else if e = 255 then 0
  else sign * (((2 ^ 23 + m : ℕ) : ℚ) * 2 ^ e / 2 ^ 150)

/-- Axis-aligned bounding box as the source returns it: `min` and `max` as
3-element coordinate lists. -/
structure BoundingBox where
  min : List ℚ
  max : List ℚ
deriving DecidableEq

/-- Result record of `parseStlWithColor`. -/
structure MeshData where
  vertices : List ℚ
  normals : List ℚ
  colors : List ℚ
  indices : List Nat
  triangleCount : Nat
  boundingBox : Option BoundingBox
  hasColors : Bool
deriving DecidableEq

/-- Coordinate `k` (0, 1 or 2) of every vertex, as the loop
`for (i = 0; i < vertices.length; i += 3)` visits them. -/
def coordSlice (vertices : List ℚ) (k : Nat) : List ℚ :=
  (List.range (vertices.length / 3)).map (fun j => vertices.getD (3 * j + k) 0)

/-- Minimum of a nonempty list, as `Math.min` folded from `Infinity`. -/
def listMin : List ℚ → ℚ
  | [] => 0
  | a :: l => l.foldl min a

/-- Maximum of a nonempty list, as `Math.max` folded from `-Infinity`. -/
def listMax : List ℚ → ℚ
  | [] => 0
  | a :: l => l.foldl max a

/-- The `minX`-style fold of `scaleAndCenterVertices` for coordinate `k`. -/
def stlMinC (vertices : List ℚ) (k : Nat) : ℚ := listMin (coordSlice vertices k)

/-- The `maxX`-style fold of `scaleAndCenterVertices` for coordinate `k`. -/
def stlMaxC (vertices : List ℚ) (k : Nat) : ℚ := listMax (coordSlice vertices k)

/-- The `maxDimension` of `scaleAndCenterVertices`:
`Math.max(sizeX, sizeY, sizeZ)`. -/
def stlMaxDimension (vertices : List ℚ) : ℚ :=
  max (max (stlMaxC vertices 0 - stlMinC vertices 0)
        (stlMaxC vertices 1 - stlMinC vertices 1))
    (stlMaxC vertices 2 - stlMinC vertices 2)

/-- The `scale` of `scaleAndCenterVertices`:
`maxDimension > 0 ? 10 / maxDimension : 1`. -/
def stlScale (vertices : List ℚ) : ℚ :=
  if 0 < stlMaxDimension vertices then 10 / stlMaxDimension vertices else 1

/-- The bounding-box center of `scaleAndCenterVertices` for coordinate `k`. -/
def stlCenter (vertices : List ℚ) (k : Nat) : ℚ :=
  (stlMinC vertices k + stlMaxC vertices k) / 2

/-- Model of `ConversionService.scaleAndCenterVertices` (conversion service,
file-service.js lines 463-499).  The flat vertex list is rewritten index by
index exactly as the source loop writes `scaledVertices[i]`; the claims only
concern lists whose length is a multiple of 3, where this model is exact (for
other lengths the JavaScript reads `undefined` and produces NaNs, which have
no rational counterpart). -/
def scaleAndCenterVertices (vertices : List ℚ) : List ℚ × Option BoundingBox :=
  if vertices = [] then (vertices, none)
  else
    let scale := stlScale vertices
    let center := stlCenter vertices
    ((List.range vertices.length).map
        (fun i => (vertices.getD i 0 - center (i % 3)) * scale),
     some ⟨[(stlMinC vertices 0 - center 0) * scale,
            (stlMinC vertices 1 - center 1) * scale,
            (stlMinC vertices 2 - center 2) * scale],
           [(stlMaxC vertices 0 - center 0) * scale,
            (stlMaxC vertices 1 - center 1) * scale,
            (stlMaxC vertices 2 - center 2) * scale]⟩)

/-- Byte offset of triangle record `i` in a binary STL buffer. -/
def recOffset (i : Nat) : Nat := 84 + 50 * i

/-- The normal vector of record `i` (offsets +0, +4, +8). -/
def recordNormal (buf : List Nat) (i : Nat) : List ℚ :=
  [decodeFloat32LE buf (recOffset i),
   decodeFloat32LE buf (recOffset i + 4),
   decodeFloat32LE buf (recOffset i + 8)]

/-- The nine vertex coordinates of record `i` (v1, v2, v3 at offsets +12 to
+44), in record order. -/
def recordVertices (buf : List Nat) (i : Nat) : List ℚ :=
  [decodeFloat32LE buf (recOffset i + 12),
   decodeFloat32LE buf (recOffset i + 16),
   decodeFloat32LE buf (recOffset i + 20),
   decodeFloat32LE buf (recOffset i + 24),
   decodeFloat32LE buf (recOffset i + 28),
   decodeFloat32LE buf (recOffset i + 32),
   decodeFloat32LE buf (recOffset i + 36),
   decodeFloat32LE buf (recOffset i + 40),
   decodeFloat32LE buf (recOffset i + 44)]

/-- The 16-bit attribute word of record `i` (offset +48). -/
def recordAttr (buf : List Nat) (i : Nat) : Nat :=
  readUInt16LE buf (recOffset i + 48)

/-- Channel `(attribute >> 10) & 0x1F` scaled by `/ 31.0` (called `b` first in
the source's BGR reading). -/
def colorB (attr : Nat) : ℚ := (((attr / 1024) % 32 : ℕ) : ℚ) / 31

/-- Channel `(attribute >> 5) & 0x1F` scaled by `/ 31.0`. -/
def colorG (attr : Nat) : ℚ := (((attr / 32) % 32 : ℕ) : ℚ) / 31

/-- Channel `attribute & 0x1F` scaled by `/ 31.0`. -/
def colorR (attr : Nat) : ℚ := ((attr % 32 : ℕ) : ℚ) / 31

/-- The `(attribute & 0x8000) !== 0` test; `attr` comes from `readUInt16LE`
and so is below 2^16. -/
def hasColorBit (attr : Nat) : Bool := attr / 32768 % 2 = 1

/-- The nine color values one loop iteration pushes for a record with
attribute word `attr` (file-service.js lines 395-442): a bit-15 record is
decoded as BGR, re-read as RGB when the average is darker than 0.1; a nonzero
record without bit 15 contributes its decoded color when any channel exceeds
0.05 and the default grey 0.7 otherwise; a zero record contributes grey. -/
def recordColors (attr : Nat) : List ℚ :=
  if hasColorBit attr then
    let b := colorB attr
    let g := colorG attr
    let r := colorR attr
    let fR := if (r + g + b) / 3 < 1 / 10 then b else r
    let fG := g
    let fB := if (r + g + b) / 3 < 1 / 10 then r else b
    [fR, fG, fB, fR, fG, fB, fR, fG, fB]
  else if attr ≠ 0 then
    if 1 / 20 < colorR attr ∨ 1 / 20 < colorG attr ∨ 1 / 20 < colorB attr then
      [colorR attr, colorG attr, colorB attr,
       colorR attr, colorG attr, colorB attr,
       colorR attr, colorG attr, colorB attr]
    else [7/10, 7/10, 7/10, 7/10, 7/10, 7/10, 7/10, 7/10, 7/10]
  else [7/10, 7/10, 7/10, 7/10, 7/10, 7/10, 7/10, 7/10, 7/10]

/-- Whether one loop iteration sets `hasColor` for attribute word `attr`. -/
def recordHasColor (attr : Nat) : Bool :=
  hasColorBit attr ||
    (decide (attr ≠ 0) &&
      (decide (1 / 20 < colorR attr) || decide (1 / 20 < colorG attr) ||
        decide (1 / 20 < colorB attr)))

/-- The flat raw vertex list the parse loop accumulates
(`vertices.push(...v1, ...v2, ...v3)` per record). -/
def rawStlVertices (buf : List Nat) (n : Nat) : List ℚ :=
  (List.range n).flatMap (fun i => recordVertices buf i)

/-- The flat normal list the parse loop accumulates
(`normals.push(...n, ...n, ...n)` per record). -/
def rawStlNormals (buf : List Nat) (n : Nat) : List ℚ :=
  (List.range n).flatMap
    (fun i => recordNormal buf i ++ recordNormal buf i ++ recordNormal buf i)

/-- Model of `ConversionService.parseStlWithColor` (file-service.js lines
369-461).  The triangle count is the 32-bit little-endian word at offset 80;
the loop over records accumulates vertices, normals and per-record color
blocks, and `indices` is `[0, …, 3n-1]`; the vertex list is then centered and
scaled, and `colors` is kept only when some record set `hasColor`. -/
def parseStlWithColor (buf : List Nat) : MeshData :=
  let triangleCount := readUInt32LE buf 80
  let vertices := rawStlVertices buf triangleCount
  let sc := scaleAndCenterVertices vertices
  let hasColor := (List.range triangleCount).any
    (fun i => recordHasColor (recordAttr buf i))
  { vertices := sc.1
    normals := rawStlNormals buf triangleCount
    colors := if hasColor then
        (List.range triangleCount).flatMap (fun i => recordColors (recordAttr buf i))
      else []
    indices := List.range (triangleCount * 3)
    triangleCount := triangleCount
    boundingBox := sc.2
    hasColors := hasColor }

/- ----------------------------------------------------------------- -/
/- Concrete inputs used by counterexamples and witnesses.            -/
/- ----------------------------------------------------------------- -/

/-- A private project owned by `alice`. -/
def c1Project : Project := ⟨"alice", "private", false, 0, "demo"⟩

/-- A store holding only the private project `p1`. -/
def c1Db : Db := fun id => if id = "p1" then some c1Project else none

/-- An empty cache. -/
def emptyCache : Cache := fun _ => none

/-- Upload with a `.obj` as the dedicated model file and nothing else. -/
def c6Files : UploadFiles := ⟨[⟨"part.obj"⟩], []⟩

/-- A one-record binary STL whose only triangle is ((0,0,0), (2,0,0), (0,2,0))
with a zero normal and a zero attribute word: header of 80 zero bytes, count
word 1, then the 50-byte record (2.0f is the bytes 0,0,0,64 little-endian). -/
def c2CounterBuf : List Nat :=
  List.replicate 80 0 ++ [1, 0, 0, 0] ++
    (List.replicate 24 0 ++
      ([0, 0, 0, 64] ++ List.replicate 8 0) ++
      (List.replicate 4 0 ++ [0, 0, 0, 64] ++ List.replicate 4 0) ++
      [0, 0])

/-- A one-record all-zero binary STL (degenerate triangle at the origin). -/
def c2WitnessBuf : List Nat :=
  List.replicate 80 0 ++ [1, 0, 0, 0] ++ List.replicate 50 0

/-- A collection for the pin-limit witness: user `u` owns four pinned projects
and a fifth unpinned one. -/
def c3Db : PDb :=
  [("a", ⟨"u", "public", true, 0, ""⟩),
   ("b", ⟨"u", "public", true, 0, ""⟩),
   ("c", ⟨"u", "public", true, 0, ""⟩),
   ("d", ⟨"u", "public", true, 0, ""⟩),
   ("e", ⟨"u", "public", false, 0, ""⟩)]

/-- A store holding one public project, for the view-count witness. -/
def c5Db : Db :=
  fun id => if id = "q" then some ⟨"bob", "public", false, 7, "x"⟩ else none

/-- A verifier accepting exactly the token `tok`, for the auth witness. -/
def c9Verify : String → Except AuthError DecodedToken :=
  fun t => if t = "tok" then Except.ok ⟨"u1", "u1@example.com", ""⟩
    else Except.error ⟨"auth/argument-error"⟩

/-- A handler echoing the authenticated uid, for the auth witness. -/
def c9Handler : ReqUser → Response :=
  fun u => ⟨200, Body.errorMsg u.uid⟩

/- ----------------------------------------------------------------- -/
/- Theorems.                                                         -/
/- ----------------------------------------------------------------- -/

/-- C1: the claim that `GET /api/projects/:id` through the cache layer is
observationally equivalent to the bare handler — in particular that a private
project is never returned to a non-owner — fails on the code: after the owner
`alice` fetches her private project `p1` (populating the cache through the
intercepted `res.json`), an anonymous request is served the cached private
document with status 200, while the handler alone answers 404. -/
theorem c1_cache_serves_private_project :
    (getProjectByIdRoute c1Db
        (getProjectByIdRoute c1Db emptyCache (some "alice") "p1").2 none "p1").1 =
      ⟨200, Body.projectDoc "p1" c1Project⟩ ∧
    getProjectHandler c1Db none "p1" =
      ⟨404, Body.errorMsg
        "Project not found or you do not have permission to view it."⟩ := by
  constructor
  · decide
  · decide

/-- C5: for an existing project, `POST /:id/view` responds 200 with the
success body, increments exactly `stats.views` of exactly that document
(every other field and every other document unchanged) and deletes the cache
key `project:` + id (every other cache key unchanged); when the Firestore
update fails (missing document) it responds 500 and changes nothing. -/
theorem c5_incrementView_spec (db : Db) (c : Cache) (id : String) :
    (∀ p, db id = some p →
      (incrementViewRoute db c id).1 = ⟨200, Body.viewSuccess⟩ ∧
      (incrementViewRoute db c id).2.1 id =
        some ⟨p.userId, p.visibility, p.isPinned, p.views + 1, p.payload⟩ ∧
      (∀ q, q ≠ id → (incrementViewRoute db c id).2.1 q = db q) ∧
      (incrementViewRoute db c id).2.2 ("project:" ++ id) = none ∧
      (∀ k, k ≠ "project:" ++ id → (incrementViewRoute db c id).2.2 k = c k)) ∧
    (db id = none →
      incrementViewRoute db c id =
        (⟨500, Body.errorMsg "Failed to update view count"⟩, db, c)) := by
  constructor
  · intro p hp
    refine ⟨?_, ?_, ?_, ?_, ?_⟩
    · simp [incrementViewRoute, hp]
    · cases p
      simp [incrementViewRoute, hp]
    · intro q hq
      simp [incrementViewRoute, hp, hq]
    · simp [incrementViewRoute, hp, cacheDel]
    · intro k hk
      simp [incrementViewRoute, hp, cacheDel, hk]
  · intro h
    simp [incrementViewRoute, h]

/-- C5 witness: on the concrete store `c5Db`, viewing project `q` bumps its
views from 7 to 8. -/
theorem c5_witness :
    c5Db "q" = some ⟨"bob", "public", false, 7, "x"⟩ ∧
    (incrementViewRoute c5Db emptyCache "q").2.1 "q" =
      some ⟨"bob", "public", false, 8, "x"⟩ := by
  constructor
  · decide
  · have h := ((c5_incrementView_spec c5Db emptyCache "q").1
      ⟨"bob", "public", false, 7, "x"⟩ (by decide)).2.1
    simpa using h

/-- C7: the projects router registers `GET /:id` before `GET /me`, so the
path `/me` always dispatches to the `/:id` route (index 0) with the parameter
bound to `me`, whatever the `/me` handler would have answered; with no
document `me` and no cached entry the response is 404 `Project not found`. -/
theorem c7_me_shadowed (db : Db) (c : Cache) (user : Option String)
    (meHandler : Response × Cache) :
    dispatchIndex ["me"] = some 0 ∧
    serveProjectsGet db c user meHandler ["me"] =
      some (getProjectByIdRoute db c user "me") ∧
    (db "me" = none → c ("project:" ++ "me") = none →
      (getProjectByIdRoute db c user "me").1 =
        ⟨404, Body.errorMsg "Project not found"⟩) := by
  refine ⟨by decide, rfl, ?_⟩
  intro h1 h2
  have h3 : c "project:me" = none := h2
  simp [getProjectByIdRoute, h3, getProjectHandler, h1]

/-- C7 witness: on the concrete store `c5Db` (which has no document `me`) and
an empty cache, `/me` is answered by the `/:id` handler with 404. -/
theorem c7_witness :
    c5Db "me" = none ∧ emptyCache ("project:" ++ "me") = none ∧
    (getProjectByIdRoute c5Db emptyCache none "me").1 =
      ⟨404, Body.errorMsg "Project not found"⟩ :=
  ⟨by decide, rfl,
    (c7_me_shadowed c5Db emptyCache none
        (⟨200, Body.viewSuccess⟩, emptyCache)).2.2 (by decide) rfl⟩

/-- C9: the auth middleware answers 401 `No token provided or invalid format`
without running the handler when the Authorization header is absent or does
not start with `Bearer `; when verification throws it answers 401 — `Token
has expired.` for error code `auth/id-token-expired`, `Invalid token`
otherwise — again without the handler; and it runs the handler exactly when
verification succeeds, with `req.user.uid` taken from the decoded token. -/
theorem c9_verifyFirebaseToken_spec
    (verify : String → Except AuthError DecodedToken)
    (authorization : Option String) (handler : ReqUser → Response) :
    (authorization = none →
      verifyFirebaseToken verify authorization handler =
        ⟨401, Body.errorMsg "No token provided or invalid format"⟩) ∧
    (∀ h, authorization = some h → strStartsWith h "Bearer " = false →
      verifyFirebaseToken verify authorization handler =
        ⟨401, Body.errorMsg "No token provided or invalid format"⟩) ∧
    (∀ h e, authorization = some h → strStartsWith h "Bearer " = true →
      verify (bearerToken h) = Except.error e →
      verifyFirebaseToken verify authorization handler =
        ⟨401, Body.errorMsg (if e.code = "auth/id-token-expired" then
          "Token has expired." else "Invalid token")⟩) ∧
    (∀ h d, authorization = some h → strStartsWith h "Bearer " = true →
      verify (bearerToken h) = Except.ok d →
      verifyFirebaseToken verify authorization handler =
        handler ⟨d.uid, d.email, if d.name = "" then d.email else d.name⟩) := by
  refine ⟨?_, ?_, ?_, ?_⟩
  · intro h
    subst h
    rfl
  · intro h hh hs
    subst hh
    simp [verifyFirebaseToken, hs]
  · intro h e hh hs hv
    subst hh
    simp only [verifyFirebaseToken, hs, Bool.true_eq_false, if_false, hv]
    split <;> rfl
  · intro h d hh hs hv
    subst hh
    simp only [verifyFirebaseToken, hs, Bool.true_eq_false, if_false, hv]

/-- C9 witness: with a verifier accepting the token `tok`, the request with
header `Bearer tok` reaches the handler with uid `u1`; the hypotheses of the
success case are discharged on this concrete input. -/
theorem c9_witness :
    strStartsWith "Bearer tok" "Bearer " = true ∧
    c9Verify (bearerToken "Bearer tok") =
      Except.ok ⟨"u1", "u1@example.com", ""⟩ ∧
    verifyFirebaseToken c9Verify (some "Bearer tok") c9Handler =
      ⟨200, Body.errorMsg "u1"⟩ := by
  refine ⟨by decide, rfl, ?_⟩
  have h := (c9_verifyFirebaseToken_spec c9Verify (some "Bearer tok")
      c9Handler).2.2.2 "Bearer tok" ⟨"u1", "u1@example.com", ""⟩ rfl
      (by decide) rfl
  rw [h]
  decide

/-- C10: the Redis wrapper never propagates a cache failure — when the client
is disconnected or the underlying operation throws, `get` returns null, `set`
returns false and `del` returns false — and a request served through the
cache middleware with a failed (hence `none`) cache lookup gets exactly the
route handler's own response. -/
theorem c10_redis_failure_fallback :
    (∀ (g : Except RedisErr (Option String)) (p : String → Except RedisErr Body)
        (s d : Except RedisErr Unit),
      rcGet false g p = none ∧ rcSet false s = false ∧ rcDel false d = false) ∧
    (∀ (b : Bool) (e : RedisErr) (p : String → Except RedisErr Body),
      rcGet b (Except.error e) p = none ∧ rcSet b (Except.error e) = false ∧
        rcDel b (Except.error e) = false) ∧
    (∀ (db : Db) (c : Cache) (user : Option String) (id : String),
      c ("project:" ++ id) = none →
      (getProjectByIdRoute db c user id).1 = getProjectHandler db user id) := by
  refine ⟨?_, ?_, ?_⟩
  · intro g p s d
    exact ⟨rfl, rfl, rfl⟩
  · intro b e p
    cases b <;> exact ⟨rfl, rfl, rfl⟩
  · intro db c user id h
    simp [getProjectByIdRoute, h]

/-- C10 witness: on the store `c1Db` with an empty cache (every lookup
`none`), the cached route answers exactly as the bare handler. -/
theorem c10_witness :
    emptyCache ("project:" ++ "p1") = none ∧
    (getProjectByIdRoute c1Db emptyCache none "p1").1 =
      getProjectHandler c1Db none "p1" :=
  ⟨rfl, c10_redis_failure_fallback.2.2 c1Db emptyCache none "p1" rfl⟩

/-- Case analysis of the `getFileType` category cascade over an arbitrary
extension string. -/
theorem fileTypeCascade_cases (e : String) :
    ((if e ∈ [".stl", ".gltf", ".glb", ".obj"] then "model"
      else if e ∈ [".py", ".cpp", ".js", ".m", ".zip"] then "code"
      else if e ∈ [".pdf", ".doc", ".docx", ".txt"] then "documentation"
      else if e ∈ [".mp4", ".mov", ".avi", ".webm"] then "video"
      else "other") = "model" ↔ e ∈ [".stl", ".gltf", ".glb", ".obj"]) ∧
    ((if e ∈ [".stl", ".gltf", ".glb", ".obj"] then "model"
      else if e ∈ [".py", ".cpp", ".js", ".m", ".zip"] then "code"
      else if e ∈ [".pdf", ".doc", ".docx", ".txt"] then "documentation"
      else if e ∈ [".mp4", ".mov", ".avi", ".webm"] then "video"
      else "other") = "code" ↔ e ∈ [".py", ".cpp", ".js", ".m", ".zip"]) ∧
    ((if e ∈ [".stl", ".gltf", ".glb", ".obj"] then "model"
      else if e ∈ [".py", ".cpp", ".js", ".m", ".zip"] then "code"
      else if e ∈ [".pdf", ".doc", ".docx", ".txt"] then "documentation"
      else if e ∈ [".mp4", ".mov", ".avi", ".webm"] then "video"
      else "other") = "documentation" ↔ e ∈ [".pdf", ".doc", ".docx", ".txt"]) ∧
    ((if e ∈ [".stl", ".gltf", ".glb", ".obj"] then "model"
      else if e ∈ [".py", ".cpp", ".js", ".m", ".zip"] then "code"
      else if e ∈ [".pdf", ".doc", ".docx", ".txt"] then "documentation"
      else if e ∈ [".mp4", ".mov", ".avi", ".webm"] then "video"
      else "other") = "video" ↔ e ∈ [".mp4", ".mov", ".avi", ".webm"]) ∧
    (e ∉ [".stl", ".gltf", ".glb", ".obj"] →
     e ∉ [".py", ".cpp", ".js", ".m", ".zip"] →
     e ∉ [".pdf", ".doc", ".docx", ".txt"] →
     e ∉ [".mp4", ".mov", ".avi", ".webm"] →
      (if e ∈ [".stl", ".gltf", ".glb", ".obj"] then "model"
      else if e ∈ [".py", ".cpp", ".js", ".m", ".zip"] then "code"
      else if e ∈ [".pdf", ".doc", ".docx", ".txt"] then "documentation"
      else if e ∈ [".mp4", ".mov", ".avi", ".webm"] then "video"
      else "other") = "other") := by
  split_ifs with h1 h2 h3 h4
  · simp only [List.mem_cons, List.not_mem_nil, or_false] at h1
    rcases h1 with rfl | rfl | rfl | rfl <;> simp [List.mem_cons]
  · simp only [List.mem_cons, List.not_mem_nil, or_false] at h2
    rcases h2 with rfl | rfl | rfl | rfl | rfl <;> simp [List.mem_cons]
  · simp only [List.mem_cons, List.not_mem_nil, or_false] at h3
    rcases h3 with rfl | rfl | rfl | rfl <;> simp [List.mem_cons]
  · simp only [List.mem_cons, List.not_mem_nil, or_false] at h4
    rcases h4 with rfl | rfl | rfl | rfl <;> simp [List.mem_cons]
  · refine ⟨?_, ?_, ?_, ?_, fun _ _ _ _ => rfl⟩ <;> simp [h1, h2, h3, h4]

/-- C8: `getFileType` is a total function of the lower-cased extension of the
file name: it answers `model` exactly for `.stl`, `.gltf`, `.glb`, `.obj`,
`code` exactly for `.py`, `.cpp`, `.js`, `.m`, `.zip`, `documentation`
exactly for `.pdf`, `.doc`, `.docx`, `.txt`, `video` exactly for `.mp4`,
`.mov`, `.avi`, `.webm`, and `other` for every other file name; two names
with the same lower-cased extension get the same category. -/
theorem c8_getFileType_by_extension (name : String) :
    (getFileType name = "model" ↔
      strLower (extname name) ∈ [".stl", ".gltf", ".glb", ".obj"]) ∧
    (getFileType name = "code" ↔
      strLower (extname name) ∈ [".py", ".cpp", ".js", ".m", ".zip"]) ∧
    (getFileType name = "documentation" ↔
      strLower (extname name) ∈ [".pdf", ".doc", ".docx", ".txt"]) ∧
    (getFileType name = "video" ↔
      strLower (extname name) ∈ [".mp4", ".mov", ".avi", ".webm"]) ∧
    (strLower (extname name) ∉ [".stl", ".gltf", ".glb", ".obj"] →
     strLower (extname name) ∉ [".py", ".cpp", ".js", ".m", ".zip"] →
     strLower (extname name) ∉ [".pdf", ".doc", ".docx", ".txt"] →
     strLower (extname name) ∉ [".mp4", ".mov", ".avi", ".webm"] →
      getFileType name = "other") ∧
    (∀ other : String, strLower (extname other) = strLower (extname name) →
      getFileType other = getFileType name) := by
  have h := fileTypeCascade_cases (strLower (extname name))
  refine ⟨h.1, h.2.1, h.2.2.1, h.2.2.2.1, h.2.2.2.2, ?_⟩
  intro other ho
  simp only [getFileType, ho]

/-- C8 witness: the name `Part.STL` (upper-case extension, lower-cased to
`.stl`) is categorized as a model, and so is `..stl`, whose extension under
Node `path.extname` is `.stl` despite the leading dots. -/
theorem c8_witness :
    getFileType "Part.STL" = "model" ∧ getFileType "..stl" = "model" :=
  ⟨(c8_getFileType_by_extension "Part.STL").1.mpr (by decide),
   (c8_getFileType_by_extension "..stl").1.mpr (by decide)⟩

/-- Lookup on a cons cell. -/
theorem lookupDoc_cons (a : String × Project) (l : PDb) (q : String) :
    lookupDoc (a :: l) q = if a.1 = q then some a.2 else lookupDoc l q := by
  by_cases h : a.1 = q <;> simp [lookupDoc, List.find?_cons, h]

/-- `pinnedCount` on a cons cell. -/
theorem pinnedCount_cons (a : String × Project) (l : PDb) (u : String) :
    pinnedCount (a :: l) u = pinIndicator a.2 u + pinnedCount l u := by
  by_cases h : (a.2.userId == u && a.2.isPinned) = true
  · simp [pinnedCount, pinIndicator, List.filter_cons, h]
    omega
  · simp [pinnedCount, pinIndicator, List.filter_cons, h]

/-- `setPinned` on a cons cell. -/
theorem setPinned_cons (a : String × Project) (l : PDb) (pid : String)
    (v : Bool) :
    setPinned (a :: l) pid v =
      (if a.1 = pid then (a.1, { a.2 with isPinned := v }) else a) ::
        setPinned l pid v := rfl

/-- A one-entry indicator is at most 1. -/
theorem pinIndicator_le_one (p : Project) (u : String) :
    pinIndicator p u ≤ 1 := by
  unfold pinIndicator
  split <;> omega

/-- An unpinned document contributes nothing to the count. -/
theorem pinIndicator_unpinned (p : Project) (u : String)
    (h : p.isPinned = false) : pinIndicator p u = 0 := by
  simp [pinIndicator, h]

/-- A document of another user contributes nothing to the count. -/
theorem pinIndicator_other (p : Project) (u : String)
    (h : ¬ p.userId = u) : pinIndicator p u = 0 := by
  simp [pinIndicator, h]

/-- Updating a key that does not occur leaves the collection unchanged. -/
theorem setPinned_of_not_mem (db : PDb) (pid : String) (v : Bool)
    (h : pid ∉ db.map Prod.fst) : setPinned db pid v = db := by
  induction db with
  | nil => rfl
  | cons a l ih =>
    simp only [List.map_cons, List.mem_cons] at h
    push_neg at h
    rw [setPinned_cons, if_neg (fun hc => h.1 hc.symm), ih h.2]

/-- Lookup after the pin update: the target document (first entry with the
id) has its `isPinned` replaced, every other id reads as before. -/
theorem lookupDoc_setPinned (db : PDb) (pid : String) (v : Bool) (q : String) :
    lookupDoc (setPinned db pid v) q =
      if q = pid then (lookupDoc db pid).map (fun p => { p with isPinned := v })
      else lookupDoc db q := by
  induction db with
  | nil => simp [lookupDoc, setPinned]
  | cons a l ih =>
    by_cases ha : a.1 = pid
    · by_cases hq : q = pid
      · subst hq
        simp [setPinned_cons, lookupDoc_cons, ha, ih]
      · have haq : ¬ a.1 = q := by
          rw [ha]
          exact fun hc => hq hc.symm
        have hqp : ¬ pid = q := fun hc => hq hc.symm
        simp [setPinned_cons, lookupDoc_cons, ha, hq, haq, hqp, ih]
    · by_cases haq : a.1 = q
      · have hq : ¬ q = pid := fun hc => ha (haq.symm ▸ hc ▸ rfl)
        simp [setPinned_cons, lookupDoc_cons, ha, haq, hq]
      · simp [setPinned_cons, lookupDoc_cons, ha, haq, ih]

/-- Pin-count bookkeeping for the transaction update, on collections with
unique document ids. -/
theorem pinnedCount_setPinned (db : PDb) (pid : String) (p : Project) (v : Bool)
    (u : String) (hnd : (db.map Prod.fst).Nodup)
    (hl : lookupDoc db pid = some p) :
    pinnedCount (setPinned db pid v) u + pinIndicator p u =
      pinnedCount db u + pinIndicator { p with isPinned := v } u := by
  induction db with
  | nil => simp [lookupDoc] at hl
  | cons a l ih =>
    simp only [List.map_cons, List.nodup_cons] at hnd
    rw [lookupDoc_cons] at hl
    by_cases ha : a.1 = pid
    · rw [if_pos ha] at hl
      have hp : p = a.2 := by
        injection hl with h2
        exact h2.symm
      subst hp
      have hnot : pid ∉ l.map Prod.fst := by
        rw [← ha]
        exact hnd.1
      rw [setPinned_cons, if_pos ha, setPinned_of_not_mem l pid v hnot,
        pinnedCount_cons, pinnedCount_cons]
      dsimp only
      omega
    · rw [if_neg ha] at hl
      have hih := ih hnd.2 hl
      rw [setPinned_cons, if_neg ha, pinnedCount_cons, pinnedCount_cons]
      omega

/-- Inversion of a successful toggle-pin transaction. -/
theorem togglePin_ok_inv (db : PDb) (uid pid : String) (db2 : PDb)
    (h : togglePin db uid pid = Except.ok db2) :
    ∃ p, lookupDoc db pid = some p ∧ p.userId = uid ∧
      db2 = setPinned db pid (! p.isPinned) ∧
      (p.isPinned = false → pinnedCount db uid ≤ 3) := by
  cases hl : lookupDoc db pid with
  | none =>
    simp only [togglePin, hl] at h
    simp at h
  | some p =>
    simp only [togglePin, hl] at h
    by_cases hu : p.userId = uid
    · rw [if_neg (not_not_intro hu)] at h
      by_cases hc : p.isPinned = false ∧ 4 ≤ pinnedCount db uid
      · rw [if_pos hc] at h
        simp at h
      · rw [if_neg hc] at h
        refine ⟨p, rfl, hu, ?_, ?_⟩
        · injection h with h2
          exact h2.symm
        · intro hpin
          by_contra hge
          exact hc ⟨hpin, by omega⟩
    · rw [if_pos hu] at h
      simp at h

/-- C3: the toggle-pin transaction preserves the per-user limit of 4 pinned
projects; pinning a fifth project fails with
`You can only pin a maximum of 4 projects.` and leaves every document
unchanged; in the allowed cases it flips exactly the target project's
`isPinned`; and the owner check (requester uid = document `userId`) guards
the whole operation. -/
theorem c3_togglePin_spec (db : PDb) (uid pid : String) (p : Project) :
    ((∀ u, pinnedCount db u ≤ 4) → (db.map Prod.fst).Nodup →
      ∀ db2, togglePin db uid pid = Except.ok db2 →
        ∀ u, pinnedCount db2 u ≤ 4) ∧
    (lookupDoc db pid = some p → p.userId = uid → p.isPinned = false →
      4 ≤ pinnedCount db uid →
      togglePinRoute db uid pid =
        (⟨500, Body.errorMsg "You can only pin a maximum of 4 projects."⟩, db)) ∧
    (lookupDoc db pid = some p → p.userId = uid →
      (p.isPinned = true ∨ pinnedCount db uid < 4) →
      togglePin db uid pid = Except.ok (setPinned db pid (! p.isPinned)) ∧
      ∀ q, lookupDoc (setPinned db pid (! p.isPinned)) q =
        if q = pid then some { p with isPinned := ! p.isPinned }
        else lookupDoc db q) ∧
    (lookupDoc db pid = some p → ¬ p.userId = uid →
      togglePinRoute db uid pid =
        (⟨500, Body.errorMsg
          "Project not found or you do not have permission to pin it."⟩, db)) := by
  refine ⟨?_, ?_, ?_, ?_⟩
  · intro hb hnd db2 hok u
    obtain ⟨q, hl, huid, hdb2, hcap⟩ := togglePin_ok_inv db uid pid db2 hok
    subst hdb2
    have hcount := pinnedCount_setPinned db pid q (! q.isPinned) u hnd hl
    cases hpin : q.isPinned with
    | true =>
      have h0 : pinIndicator { q with isPinned := ! q.isPinned } u = 0 :=
        pinIndicator_unpinned _ u (by simp [hpin])
      have hbu := hb u
      rw [hpin] at hcount h0
      omega
    | false =>
      have h0 : pinIndicator q u = 0 := pinIndicator_unpinned q u hpin
      have hle : pinIndicator { q with isPinned := ! q.isPinned } u ≤ 1 :=
        pinIndicator_le_one _ u
      rw [hpin] at hcount hle
      by_cases hu : q.userId = u
      · have h3 : pinnedCount db u ≤ 3 := by
          rw [← hu] at *
          rw [huid] at *
          exact hcap hpin
        omega
      · have h0b : pinIndicator { q with isPinned := ! q.isPinned } u = 0 :=
          pinIndicator_other _ u (by simpa using hu)
        have hbu := hb u
        rw [hpin] at h0b
        omega
  · intro hl huid hpin hcnt
    simp only [togglePinRoute, togglePin, hl]
    rw [if_neg (not_not_intro huid), if_pos ⟨hpin, hcnt⟩]
  · intro hl huid hok
    constructor
    · simp only [togglePin, hl]
      rw [if_neg (not_not_intro huid), if_neg ?_]
      rintro ⟨h1, h2⟩
      rcases hok with h | h
      · rw [h1] at h
        exact absurd h (by simp)
      · omega
    · intro q
      rw [lookupDoc_setPinned, hl]
      rfl
  · intro hl huid
    simp only [togglePinRoute, togglePin, hl]
    rw [if_pos huid]

/-- C3 witness: user `u` already has four pinned projects in `c3Db`; toggling
the unpinned project `e` fails with the pin-limit error and returns the
collection unchanged. -/
theorem c3_witness :
    lookupDoc c3Db "e" = some ⟨"u", "public", false, 0, ""⟩ ∧
    4 ≤ pinnedCount c3Db "u" ∧
    togglePinRoute c3Db "u" "e" =
      (⟨500, Body.errorMsg "You can only pin a maximum of 4 projects."⟩,
       c3Db) := by
  refine ⟨by decide, by decide, ?_⟩
  exact (c3_togglePin_spec c3Db "u" "e" ⟨"u", "public", false, 0, ""⟩).2.1
    (by decide) rfl rfl (by decide)

/-- C6 counterexample: with `files.modelFile = [part.obj]` and no project
files, no file at all has a name ending in `.stl`, yet `createProject` does
not throw — it accepts `part.obj` as the model — contradicting the claim that
the error is raised exactly when no `.stl` filename is present. -/
theorem c6_counterexample :
    c6Files.modelFile.all (fun f => ! isStlName f.originalname) = true ∧
    c6Files.projectFiles.all (fun f => ! isStlName f.originalname) = true ∧
    createProjectModelCheck c6Files = Except.ok ⟨"part.obj"⟩ := by
  refine ⟨by decide, by decide, rfl⟩

/-- C6 (amended): `createProject` throws
`A 3D model file (.stl) is required to create a project.` — creating no
project document — exactly when `files.modelFile` is empty and no entry of
`files.projectFiles` has a name ending case-insensitively in `.stl`; a
non-empty `files.modelFile` is accepted whatever its extension.  The
client-side form indeed classifies `part.obj` as a model file. -/
theorem c6_model_requirement (files : UploadFiles) :
    ((∃ msg, createProjectModelCheck files = Except.error msg) ↔
      (files.modelFile = [] ∧
        files.projectFiles.all (fun f => ! isStlName f.originalname) = true)) ∧
    (createProjectModelCheck files =
        Except.error "A 3D model file (.stl) is required to create a project." ∨
      ∃ f, createProjectModelCheck files = Except.ok f) ∧
    clientGetFileType "part.obj" = "model" := by
  refine ⟨?_, ?_, by decide⟩
  · constructor
    · rintro ⟨msg, hm⟩
      cases hmf : files.modelFile with
      | cons f fs =>
        simp only [createProjectModelCheck, selectModelFile, hmf] at hm
        simp at hm
      | nil =>
        simp only [createProjectModelCheck, selectModelFile, hmf] at hm
        cases hfind : files.projectFiles.find? (fun g => isStlName g.originalname) with
        | some f =>
          rw [hfind] at hm
          simp at hm
        | none =>
          refine ⟨rfl, ?_⟩
          rw [List.find?_eq_none] at hfind
          rw [List.all_eq_true]
          intro g hg
          simpa using hfind g hg
    · rintro ⟨hmf, hall⟩
      refine ⟨"A 3D model file (.stl) is required to create a project.", ?_⟩
      have hfind : files.projectFiles.find? (fun g => isStlName g.originalname) = none := by
        rw [List.find?_eq_none]
        intro g hg
        have := List.all_eq_true.mp hall g hg
        simpa using this
      simp only [createProjectModelCheck, selectModelFile, hmf, hfind]
  · cases hsel : selectModelFile files with
    | none =>
      left
      simp only [createProjectModelCheck, hsel]
    | some f =>
      right
      exact ⟨f, by simp only [createProjectModelCheck, hsel]⟩

/-- C6 witness: with no files at all the amended condition holds and the
error is raised. -/
theorem c6_witness :
    ∃ msg, createProjectModelCheck ⟨[], []⟩ = Except.error msg :=
  (c6_model_requirement ⟨[], []⟩).1.mpr ⟨rfl, rfl⟩

/-- C4: on the empty list `scaleAndCenterVertices` returns the input with a
null bounding box; on a non-empty flat vertex list (length a multiple of 3)
it subtracts the per-axis bounding-box center and multiplies by
`10 / maxDimension` (scale 1 when `maxDimension` is 0), and the returned
bounding box satisfies `min = -max` componentwise with largest extent exactly
10 whenever `maxDimension` is positive. -/
theorem c4_scaleAndCenter_spec (v : List ℚ) :
    (v = [] → scaleAndCenterVertices v = (v, none)) ∧
    (v ≠ [] → v.length % 3 = 0 →
      (scaleAndCenterVertices v).1 =
        (List.range v.length).map
          (fun i => (v.getD i 0 - stlCenter v (i % 3)) * stlScale v) ∧
      (0 < stlMaxDimension v → stlScale v = 10 / stlMaxDimension v) ∧
      (stlMaxDimension v = 0 → stlScale v = 1) ∧
      ∃ bb, (scaleAndCenterVertices v).2 = some bb ∧
        bb.min = bb.max.map (fun x => -x) ∧
        (0 < stlMaxDimension v →
          listMax (List.zipWith (fun a b => b - a) bb.min bb.max) = 10)) := by
  constructor
  · intro h
    subst h
    rfl
  · intro hne hmod
    refine ⟨?_, ?_, ?_, ?_⟩
    · simp only [scaleAndCenterVertices]
      rw [if_neg hne]
    · intro hpos
      rw [stlScale, if_pos hpos]
    · intro hz
      rw [stlScale, if_neg (by rw [hz]; exact lt_irrefl 0)]
    · refine ⟨⟨[(stlMinC v 0 - stlCenter v 0) * stlScale v,
          (stlMinC v 1 - stlCenter v 1) * stlScale v,
          (stlMinC v 2 - stlCenter v 2) * stlScale v],
          [(stlMaxC v 0 - stlCenter v 0) * stlScale v,
          (stlMaxC v 1 - stlCenter v 1) * stlScale v,
          (stlMaxC v 2 - stlCenter v 2) * stlScale v]⟩, ?_, ?_, ?_⟩
      · simp only [scaleAndCenterVertices]
        rw [if_neg hne]
      · have hneg : ∀ k, (stlMinC v k - stlCenter v k) * stlScale v =
            -((stlMaxC v k - stlCenter v k) * stlScale v) := by
          intro k
          unfold stlCenter
          ring
        simp only [List.map_cons, List.map_nil]
        rw [hneg 0, hneg 1, hneg 2]
      · intro hpos
        have hs : 0 ≤ stlScale v := by
          rw [stlScale, if_pos hpos]
          positivity
        simp only [List.zipWith]
        unfold listMax
        simp only [List.foldl]
        have e0 : (stlMaxC v 0 - stlCenter v 0) * stlScale v -
            (stlMinC v 0 - stlCenter v 0) * stlScale v =
            (stlMaxC v 0 - stlMinC v 0) * stlScale v := by ring
        have e1 : (stlMaxC v 1 - stlCenter v 1) * stlScale v -
            (stlMinC v 1 - stlCenter v 1) * stlScale v =
            (stlMaxC v 1 - stlMinC v 1) * stlScale v := by ring
        have e2 : (stlMaxC v 2 - stlCenter v 2) * stlScale v -
            (stlMinC v 2 - stlCenter v 2) * stlScale v =
            (stlMaxC v 2 - stlMinC v 2) * stlScale v := by ring
        rw [e0, e1, e2, ← max_mul_of_nonneg _ _ hs, ← max_mul_of_nonneg _ _ hs]
        have hgoal : stlMaxDimension v * stlScale v = 10 := by
          rw [stlScale, if_pos hpos]
          field_simp
        exact hgoal

/-- C4 witness: the vertex list of a degenerate two-point mesh satisfies the
hypotheses, and the returned bounding box is centered at the origin. -/
theorem c4_witness :
    ([0, 0, 0, 2, 0, 0] : List ℚ) ≠ [] ∧
    ([0, 0, 0, 2, 0, 0] : List ℚ).length % 3 = 0 ∧
    ∃ bb, (scaleAndCenterVertices [0, 0, 0, 2, 0, 0]).2 = some bb ∧
      bb.min = bb.max.map (fun x => -x) := by
  refine ⟨by simp, by rfl, ?_⟩
  obtain ⟨bb, h1, h2, h3⟩ :=
    ((c4_scaleAndCenter_spec [0, 0, 0, 2, 0, 0]).2 (by simp) (by rfl)).2.2.2
  exact ⟨bb, h1, h2⟩

/-- Every loop iteration pushes exactly nine color values. -/
theorem recordColors_length (attr : Nat) : (recordColors attr).length = 9 := by
  unfold recordColors
  split_ifs <;> simp

/-- Length of a per-record accumulation with nine entries per record. -/
theorem length_flatMap_nine {α : Type} (f : α → List ℚ) (l : List α)
    (h : ∀ a, (f a).length = 9) : (l.flatMap f).length = 9 * l.length := by
  induction l with
  | nil => simp
  | cons a t ih =>
    simp only [List.flatMap_cons, List.length_append, h a, ih, List.length_cons]
    ring

/-- Centering and scaling preserves the vertex-list length. -/
theorem scaleAndCenter_fst_length (v : List ℚ) :
    (scaleAndCenterVertices v).1.length = v.length := by
  by_cases h : v = []
  · subst h
    rfl
  · simp only [scaleAndCenterVertices]
    rw [if_neg h]
    simp

/-- Indexing into a per-record accumulation with nine entries per record:
entry `9 i + k` of the flat list is entry `k` of record `i`. -/
theorem flatMap_range_getD (f : Nat → List ℚ) (h : ∀ j, (f j).length = 9) :
    ∀ n i k, i < n → k < 9 →
      ((List.range n).flatMap f).getD (9 * i + k) 0 = (f i).getD k 0 := by
  intro n
  induction n with
  | zero =>
    intro i k hi hk
    exact absurd hi (Nat.not_lt_zero i)
  | succ m ih =>
    intro i k hi hk
    have hlen : ((List.range m).flatMap f).length = 9 * m := by
      rw [length_flatMap_nine f _ (fun a => h a), List.length_range]
    rw [List.range_succ, List.flatMap_append]
    by_cases him : i < m
    · rw [List.getD_append _ _ _ _ (by rw [hlen]; omega)]
      exact ih i k him hk
    · have him2 : i = m := by omega
      subst him2
      rw [List.getD_append_right _ _ _ _ (by rw [hlen]; omega)]
      rw [hlen]
      simp only [List.flatMap_cons, List.flatMap_nil, List.append_nil]
      congr 1
      omega

/-- C2 (amended): on a buffer whose count word at offset 80 is `n` and which
contains the `n` 50-byte records, `parseStlWithColor` reports
`triangleCount = n`; its `vertices` are the 9n per-record vertex coordinates
in record order after the centering and scaling of `scaleAndCenterVertices`;
`normals` holds each record's normal three times consecutively (9n values);
`indices` is `[0, …, 3n-1]`; `colors` has exactly the vertices' length when
some record has attribute bit 15 set, and is empty when every record's
attribute word is 0. -/
theorem c2_parseStl_spec (buf : List Nat) (n : Nat)
    (hn : readUInt32LE buf 80 = n) (hlen : 84 + 50 * n ≤ buf.length) :
    (parseStlWithColor buf).triangleCount = n ∧
    (parseStlWithColor buf).vertices =
      (scaleAndCenterVertices (rawStlVertices buf n)).1 ∧
    (parseStlWithColor buf).vertices.length = 9 * n ∧
    rawStlVertices buf n =
      (List.range n).flatMap (fun i => recordVertices buf i) ∧
    (∀ i, recordVertices buf i =
      [decodeFloat32LE buf (recOffset i + 12),
       decodeFloat32LE buf (recOffset i + 16),
       decodeFloat32LE buf (recOffset i + 20),
       decodeFloat32LE buf (recOffset i + 24),
       decodeFloat32LE buf (recOffset i + 28),
       decodeFloat32LE buf (recOffset i + 32),
       decodeFloat32LE buf (recOffset i + 36),
       decodeFloat32LE buf (recOffset i + 40),
       decodeFloat32LE buf (recOffset i + 44)]) ∧
    (∀ i k, i < n → k < 9 →
      (rawStlVertices buf n).getD (9 * i + k) 0 =
        (recordVertices buf i).getD k 0) ∧
    (parseStlWithColor buf).normals.length = 9 * n ∧
    (parseStlWithColor buf).normals =
      (List.range n).flatMap
        (fun i => recordNormal buf i ++ recordNormal buf i ++ recordNormal buf i) ∧
    (parseStlWithColor buf).indices = List.range (3 * n) ∧
    ((∃ i, i < n ∧ hasColorBit (recordAttr buf i) = true) →
      (parseStlWithColor buf).colors.length =
        (parseStlWithColor buf).vertices.length) ∧
    ((∀ i, i < n → recordAttr buf i = 0) →
      (parseStlWithColor buf).colors = []) := by
  subst hn
  have hvl : (parseStlWithColor buf).vertices.length =
      9 * readUInt32LE buf 80 := by
    show (scaleAndCenterVertices (rawStlVertices buf _)).1.length = _
    rw [scaleAndCenter_fst_length]
    unfold rawStlVertices
    rw [length_flatMap_nine (fun i => recordVertices buf i) _ (fun i => rfl),
      List.length_range]
  refine ⟨rfl, rfl, hvl, rfl, fun i => rfl,
    fun i k hi hk => flatMap_range_getD (fun j => recordVertices buf j)
      (fun j => rfl) _ i k hi hk, ?_, rfl, ?_, ?_, ?_⟩
  · show (rawStlNormals buf _).length = _
    unfold rawStlNormals
    rw [length_flatMap_nine
      (fun i => recordNormal buf i ++ recordNormal buf i ++ recordNormal buf i)
      _ (fun i => rfl), List.length_range]
  · show List.range (readUInt32LE buf 80 * 3) = _
    rw [Nat.mul_comm]
  · rintro ⟨i, hi, hbit⟩
    have hc1 : ((List.range (readUInt32LE buf 80)).any
        fun j => recordHasColor (recordAttr buf j)) = true := by
      rw [List.any_eq_true]
      refine ⟨i, List.mem_range.mpr hi, ?_⟩
      unfold recordHasColor
      rw [hbit]
      rfl
    have hcl : (parseStlWithColor buf).colors =
        (List.range (readUInt32LE buf 80)).flatMap
          (fun j => recordColors (recordAttr buf j)) := by
      show (if ((List.range (readUInt32LE buf 80)).any
          fun j => recordHasColor (recordAttr buf j)) = true then _ else _) = _
      rw [hc1]
      simp
    rw [hcl, hvl,
      length_flatMap_nine (fun j => recordColors (recordAttr buf j)) _
        (fun j => recordColors_length (recordAttr buf j)), List.length_range]
  · intro hz
    have hc0 : ((List.range (readUInt32LE buf 80)).any
        fun j => recordHasColor (recordAttr buf j)) = false := by
      rw [List.any_eq_false]
      intro j hj
      rw [List.mem_range] at hj
      rw [hz j hj]
      have h00 : recordHasColor 0 = false := rfl
      simp [h00]
    show (if ((List.range (readUInt32LE buf 80)).any
        fun j => recordHasColor (recordAttr buf j)) = true then _ else _) = _
    rw [hc0]
    simp

/-- A four-zero-byte read decodes to 0. -/
theorem decodeZero (buf : List Nat) (off : Nat)
    (h : readUInt32LE buf off = 0) : decodeFloat32LE buf off = 0 := by
  simp [decodeFloat32LE, h]

/-- The bit pattern 0x40000000 decodes to 2. -/
theorem decodeTwo (buf : List Nat) (off : Nat)
    (h : readUInt32LE buf off = 1073741824) : decodeFloat32LE buf off = 2 := by
  rw [decodeFloat32LE, h]
  norm_num

/-- C2 counterexample: on the one-record buffer `c2CounterBuf` the raw record
vertices are `(0,0,0), (2,0,0), (0,2,0)`, but the returned `vertices` are the
centered-and-scaled values — so the claim that the returned `vertices` array
holds the records' three vertices is false as stated. -/
theorem c2_counterexample :
    rawStlVertices c2CounterBuf 1 = [0, 0, 0, 2, 0, 0, 0, 2, 0] ∧
    (parseStlWithColor c2CounterBuf).vertices =
      [-5, -5, 0, 5, -5, 0, -5, 5, 0] ∧
    (parseStlWithColor c2CounterBuf).vertices ≠
      rawStlVertices c2CounterBuf 1 := by
  have d96 : decodeFloat32LE c2CounterBuf 96 = 0 := decodeZero _ _ (by decide)
  have d100 : decodeFloat32LE c2CounterBuf 100 = 0 := decodeZero _ _ (by decide)
  have d104 : decodeFloat32LE c2CounterBuf 104 = 0 := decodeZero _ _ (by decide)
  have d108 : decodeFloat32LE c2CounterBuf 108 = 2 := decodeTwo _ _ (by decide)
  have d112 : decodeFloat32LE c2CounterBuf 112 = 0 := decodeZero _ _ (by decide)
  have d116 : decodeFloat32LE c2CounterBuf 116 = 0 := decodeZero _ _ (by decide)
  have d120 : decodeFloat32LE c2CounterBuf 120 = 0 := decodeZero _ _ (by decide)
  have d124 : decodeFloat32LE c2CounterBuf 124 = 2 := decodeTwo _ _ (by decide)
  have d128 : decodeFloat32LE c2CounterBuf 128 = 0 := decodeZero _ _ (by decide)
  have hr1 : List.range 1 = [0] := by decide
  have hr3 : List.range 3 = [0, 1, 2] := by decide
  have hr9 : List.range 9 = [0, 1, 2, 3, 4, 5, 6, 7, 8] := by decide
  have hraw : rawStlVertices c2CounterBuf 1 = [0, 0, 0, 2, 0, 0, 0, 2, 0] := by
    simp [rawStlVertices, recordVertices, recOffset, hr1,
      d96, d100, d104, d108, d112, d116, d120, d124, d128]
  have hmin0 : stlMinC [0, 0, 0, 2, 0, 0, 0, 2, 0] 0 = 0 := by
    norm_num [stlMinC, coordSlice, hr3, List.getD, listMin, List.foldl, min_def]
  have hmax0 : stlMaxC [0, 0, 0, 2, 0, 0, 0, 2, 0] 0 = 2 := by
    norm_num [stlMaxC, coordSlice, hr3, List.getD, listMax, List.foldl, max_def]
  have hmin1 : stlMinC [0, 0, 0, 2, 0, 0, 0, 2, 0] 1 = 0 := by
    norm_num [stlMinC, coordSlice, hr3, List.getD, listMin, List.foldl, min_def]
  have hmax1 : stlMaxC [0, 0, 0, 2, 0, 0, 0, 2, 0] 1 = 2 := by
    norm_num [stlMaxC, coordSlice, hr3, List.getD, listMax, List.foldl, max_def]
  have hmin2 : stlMinC [0, 0, 0, 2, 0, 0, 0, 2, 0] 2 = 0 := by
    norm_num [stlMinC, coordSlice, hr3, List.getD, listMin, List.foldl, min_def]
  have hmax2 : stlMaxC [0, 0, 0, 2, 0, 0, 0, 2, 0] 2 = 0 := by
    norm_num [stlMaxC, coordSlice, hr3, List.getD, listMax, List.foldl, max_def]
  have hdim : stlMaxDimension [0, 0, 0, 2, 0, 0, 0, 2, 0] = 2 := by
    rw [stlMaxDimension, hmin0, hmax0, hmin1, hmax1, hmin2, hmax2]
    norm_num [max_def]
  have hsca : stlScale [0, 0, 0, 2, 0, 0, 0, 2, 0] = 5 := by
    rw [stlScale, hdim]
    norm_num
  have hcen0 : stlCenter [0, 0, 0, 2, 0, 0, 0, 2, 0] 0 = 1 := by
    rw [stlCenter, hmin0, hmax0]
    norm_num
  have hcen1 : stlCenter [0, 0, 0, 2, 0, 0, 0, 2, 0] 1 = 1 := by
    rw [stlCenter, hmin1, hmax1]
    norm_num
  have hcen2 : stlCenter [0, 0, 0, 2, 0, 0, 0, 2, 0] 2 = 0 := by
    rw [stlCenter, hmin2, hmax2]
    norm_num
  have hsc : (scaleAndCenterVertices [0, 0, 0, 2, 0, 0, 0, 2, 0]).1 =
      [-5, -5, 0, 5, -5, 0, -5, 5, 0] := by
    simp only [scaleAndCenterVertices]
    rw [if_neg (by simp)]
    show (List.range ([0, 0, 0, 2, 0, 0, 0, 2, 0] : List ℚ).length).map
        (fun i => (([0, 0, 0, 2, 0, 0, 0, 2, 0] : List ℚ).getD i 0 -
          stlCenter [0, 0, 0, 2, 0, 0, 0, 2, 0] (i % 3)) *
          stlScale [0, 0, 0, 2, 0, 0, 0, 2, 0]) = _
    rw [show ([0, 0, 0, 2, 0, 0, 0, 2, 0] : List ℚ).length = 9 from rfl, hr9]
    simp only [List.map_cons, List.map_nil, hsca]
    norm_num [List.getD, hcen0, hcen1, hcen2]
  have hone : readUInt32LE c2CounterBuf 80 = 1 := by decide
  have hv : (parseStlWithColor c2CounterBuf).vertices =
      [-5, -5, 0, 5, -5, 0, -5, 5, 0] := by
    show (scaleAndCenterVertices
      (rawStlVertices c2CounterBuf (readUInt32LE c2CounterBuf 80))).1 = _
    rw [hone, hraw, hsc]
  refine ⟨hraw, hv, ?_⟩
  rw [hv, hraw]
  intro h
  have hh := List.head_eq_of_cons_eq h
  norm_num at hh

set_option maxRecDepth 8000 in
/-- C2 witness: the all-zero one-record buffer satisfies the hypotheses of
the amended theorem; its triangle count is 1 and, every attribute word being
0, its colors array is empty. -/
theorem c2_witness :
    readUInt32LE c2WitnessBuf 80 = 1 ∧ 84 + 50 * 1 ≤ c2WitnessBuf.length ∧
    (parseStlWithColor c2WitnessBuf).triangleCount = 1 ∧
    (parseStlWithColor c2WitnessBuf).colors = [] := by
  refine ⟨by decide, by decide, ?_, ?_⟩
  · exact (c2_parseStl_spec c2WitnessBuf 1 (by decide) (by decide)).1
  · refine (c2_parseStl_spec c2WitnessBuf 1 (by decide)
      (by decide)).2.2.2.2.2.2.2.2.2.2 ?_
    intro i hi
    have h0 : i = 0 := Nat.lt_one_iff.mp hi
    subst h0
    decide
